import Mathlib

/-!
Verification of the mm-fun market-making pipeline against its specification.

The development shallow-embeds the relevant Rust sources:
* `src/mm_types/src/lib.rs` — fixed-point kernel and `Position`
* `src/mm_orderbook/src/orderbook.rs` — order-book ladders
* `src/mm_app/src/orderbook_sync.rs` — sequence synchronization state machine
* `src/mm_binary/src/checksum.rs` — CRC-32C implementation
* `src/mm_binary/src/orderbook_message.rs`, `src/mm_binary/src/messages.rs` — wire codec
* `src/mm_binary/src/compressed_string.rs` — symbol compression
* `src/mm_strategy/src/risk_manager.rs`, `src/mm_strategy/src/quote_engine.rs` — risk gating

Machine integers are modelled as `Int`/`Nat`; the explicit `as i64`/`as u64`
truncating casts of the source are modelled by reduction modulo `2^64`
(`wrap64`, `% U64_MOD`).  Rust's `i128` intermediates never overflow on the
products of two `i64` values, so they are modelled as exact integers.
Rust's integer division truncates toward zero, which is `Int.tdiv`.
-/

namespace MMFun

/-! ## Fixed-point kernel (src/mm_types/src/lib.rs, src/mm_binary/src/fixed_point.rs)

`FixedPoint` is an `i64` scaled by `10^8`. -/

def FIXED_POINT_MULTIPLIER : Int := 100000000

/-- Two's-complement truncation of an integer to 64 bits (the `as i64` cast). -/
def wrap64 (x : Int) : Int := (x + 2 ^ 63) % 2 ^ 64 - 2 ^ 63

/-- `impl Mul for FixedPoint`: `(a as i128 * b as i128) / MULTIPLier` truncated
toward zero, then cast back to `i64`. -/
def fpMul (a b : Int) : Int := wrap64 ((a * b).tdiv FIXED_POINT_MULTIPLIER)

/-- `impl Div for FixedPoint`: `(a as i128 * MULTIPLIER) / b` truncated toward
zero, then cast back to `i64`.  Rust panics on `b = 0`; the branch of
`apply_fill` that divides guarantees a nonzero divisor, and Lean's `Int.tdiv`
returns `0` there, which is never observed. -/
def fpDiv (a b : Int) : Int := wrap64 ((a * FIXED_POINT_MULTIPLIER).tdiv b)

/-! ## Position tracking (src/mm_types/src/lib.rs) -/

/-- `enum OrderSide` (re-exported from `mm_binary::messages`). -/
inductive OrderSide where
  | Bid
  | Ask
  deriving DecidableEq, Repr

/-- `struct Position` with `FixedPoint` fields represented by their raw `i64`. -/
structure Position where
  quantity : Int
  avg_entry_price : Int
  realized_pnl : Int
  deriving DecidableEq, Repr

/-- `Position::new()`. -/
def Position.new : Position :=
  { quantity := 0, avg_entry_price := 0, realized_pnl := 0 }

/-- `Position::unrealized_pnl`. -/
def Position.unrealized_pnl (p : Position) (mark_price : Int) : Int :=
  if p.quantity = 0 then 0
  else fpMul (mark_price - p.avg_entry_price) p.quantity

/-- `Position::apply_fill`.  The boolean test `(a > 0) == (b > 0)` of the
source is modelled as the decidable biconditional, and `i64::abs`
comparison by `Int.natAbs`. -/
def Position.apply_fill (p : Position) (side : OrderSide) (price quantity : Int) :
    Position :=
  let fill_qty : Int :=
    match side with
    | .Bid => quantity
    | .Ask => -quantity
  let new_quantity := p.quantity + fill_qty
  if p.quantity = 0 then
    -- Opening new position
    { p with quantity := new_quantity, avg_entry_price := price }
  else if ((0 < p.quantity ↔ 0 < new_quantity) ∧ p.quantity.natAbs < new_quantity.natAbs) then
    -- Adding to position (same sign, larger absolute value)
    let total_cost := fpMul p.avg_entry_price p.quantity + fpMul price fill_qty
    { p with avg_entry_price := fpDiv total_cost new_quantity, quantity := new_quantity }
  else if ¬(0 < p.quantity ↔ 0 < new_quantity) then
    -- Flipping position (crossing zero)
    let close_pnl := fpMul (price - p.avg_entry_price) p.quantity
    { quantity := new_quantity, avg_entry_price := price,
      realized_pnl := p.realized_pnl + close_pnl }
  else
    -- Reducing position (same sign, smaller absolute value)
    let closed_qty := -fill_qty
    let close_pnl := fpMul (price - p.avg_entry_price) closed_qty
    { p with realized_pnl := p.realized_pnl + close_pnl, quantity := new_quantity }

/-- `Position::total_pnl`. -/
def Position.total_pnl (p : Position) (mark_price : Int) : Int :=
  p.realized_pnl + p.unrealized_pnl mark_price

/-- `Position::is_flat`. -/
def Position.is_flat (p : Position) : Bool := p.quantity = 0

/-! ### Claims C6 and C10 -/

/-- **C6.** For every price `p`, `p'` and quantity `q > 0`, starting from a
flat position, `apply_fill(Bid, p, q)` followed by `apply_fill(Ask, p', q)`
leaves `realized_pnl = (p' − p) · q` at the fixed-point scale and
`quantity = 0`. -/
theorem C6_buy_then_sell_realizes_pnl (p p' q : Int) (hq : 0 < q) :
    ((Position.new.apply_fill .Bid p q).apply_fill .Ask p' q).realized_pnl
        = fpMul (p' - p) q ∧
    ((Position.new.apply_fill .Bid p q).apply_fill .Ask p' q).quantity = 0 := by
  have h1 : Position.new.apply_fill .Bid p q =
      { quantity := q, avg_entry_price := p, realized_pnl := 0 } := by
    simp [Position.apply_fill, Position.new]
  rw [h1]
  have h0 : q + -q = 0 := by ring
  have hiff : ¬(0 < q ↔ 0 < q + -q) := by
    rw [h0]; intro h; exact absurd (h.mp hq) (lt_irrefl 0)
  simp only [Position.apply_fill]
  rw [if_neg hq.ne', if_neg (fun h => hiff h.1), if_pos hiff]
  simp [h0]

/-- Witness for C6 at `p = 3 * 10^8`, `p' = 5 * 10^8`, `q = 2 * 10^8`. -/
theorem C6_buy_then_sell_realizes_pnl_witness :
    ((Position.new.apply_fill .Bid 300000000 200000000).apply_fill
        .Ask 500000000 200000000).realized_pnl
      = fpMul (500000000 - 300000000) 200000000 ∧
    ((Position.new.apply_fill .Bid 300000000 200000000).apply_fill
        .Ask 500000000 200000000).quantity = 0 :=
  C6_buy_then_sell_realizes_pnl 300000000 500000000 200000000 (by decide)

/-- **C10.** Whenever a position's quantity is `0`, `unrealized_pnl` returns
exactly `0` for every mark price, even when `avg_entry_price` is nonzero; and
a full close through `apply_fill` indeed leaves `avg_entry_price` equal to the
closing fill's price rather than resetting it. -/
theorem C10_flat_position_zero_unrealized (avg r mark p p' q : Int) (hq : 0 < q) :
    (Position.mk 0 avg r).unrealized_pnl mark = 0 ∧
    ((Position.new.apply_fill .Bid p q).apply_fill .Ask p' q).avg_entry_price = p' := by
  constructor
  · simp [Position.unrealized_pnl]
  · have h1 : Position.new.apply_fill .Bid p q =
        { quantity := q, avg_entry_price := p, realized_pnl := 0 } := by
      simp [Position.apply_fill, Position.new]
    have h0 : (q : Int) + -q = 0 := by ring
    have hiff : ¬(0 < q ↔ 0 < q + -q) := by
      rw [h0]; intro h; exact absurd (h.mp hq) (lt_irrefl 0)
    rw [h1]
    simp only [Position.apply_fill]
    rw [if_neg hq.ne', if_neg (fun h => hiff h.1), if_pos hiff]

/-- Witness for C10 at a closed position with nonzero `avg_entry_price`. -/
theorem C10_flat_position_zero_unrealized_witness :
    (Position.mk 0 500000000 7).unrealized_pnl 123456789 = 0 ∧
    ((Position.new.apply_fill .Bid 300000000 200000000).apply_fill
      .Ask 500000000 200000000).avg_entry_price = 500000000 :=
  C10_flat_position_zero_unrealized 500000000 7 123456789 300000000 500000000
    200000000 (by decide)

/-! ## Order book (src/mm_orderbook/src/orderbook.rs)

The `BTreeMap<i64, i64>` price ladders are modelled as association lists
sorted by strictly increasing price. -/

/-- A price ladder: `BTreeMap<i64, i64>` as a key-sorted association list. -/
abbrev Ladder : Type := List (Int × Int)

/-- `BTreeMap::insert` on the sorted association list. -/
def mapInsert (k v : Int) : Ladder → Ladder
  | [] => [(k, v)]
  | (k', v') :: rest =>
    if k < k' then (k, v) :: (k', v') :: rest
    else if k = k' then (k, v) :: rest
    else (k', v') :: mapInsert k v rest

/-- `BTreeMap::remove` on the sorted association list. -/
def mapRemove (k : Int) : Ladder → Ladder
  | [] => []
  | (k', v') :: rest => if k = k' then rest else (k', v') :: mapRemove k rest

/-- `BTreeMap::get` on the association list. -/
def mapGet (k : Int) : Ladder → Option Int
  | [] => none
  | (k', v') :: rest => if k = k' then some v' else mapGet k rest

/-- `struct OrderBook`. -/
structure OrderBook where
  symbol : String
  timestamp : Nat
  bids : Ladder
  asks : Ladder
  max_levels : Nat
  deriving DecidableEq

/-- `OrderBook::new`. -/
def OrderBook.new (symbol : String) : OrderBook :=
  { symbol := symbol, timestamp := 0, bids := [], asks := [], max_levels := 50 }

/-- `OrderBook::update_bid`. -/
def OrderBook.update_bid (ob : OrderBook) (price quantity : Int) : OrderBook :=
  if quantity = 0 then { ob with bids := mapRemove price ob.bids }
  else { ob with bids := mapInsert price quantity ob.bids }

/-- `OrderBook::update_ask`. -/
def OrderBook.update_ask (ob : OrderBook) (price quantity : Int) : OrderBook :=
  if quantity = 0 then { ob with asks := mapRemove price ob.asks }
  else { ob with asks := mapInsert price quantity ob.asks }

/-- `struct PriceLevel` (src/mm_binary/src/orderbook_message.rs). -/
structure PriceLevel where
  price : Int
  size : Int
  deriving DecidableEq, Repr

/-- `struct OrderBookBatchMessage` together with its header fields.

The three sequence-id fields are Modelled from the spec: the repository's
collector constructs batches with `new_with_ids(..., first_update_id,
final_update_id, prev_update_id)` and the sync state machine reads them back
through `first_update_id()` / `final_update_id()` / `prev_update_id()`, but
the version of `mm_binary/src/orderbook_message.rs` in the tree predates
those accessors; per the spec the batch message carries the `(U, u, pu)`
sequence-id triple. -/
structure OrderBookBatchMessage where
  header : Nat
  exchange : Nat
  update_type : Nat
  encoding : Nat
  symbol_low : Nat
  symbol_high : Nat
  timestamp : Nat
  first_update_id : Nat
  final_update_id : Nat
  prev_update_id : Nat
  bids : List PriceLevel
  asks : List PriceLevel
  deriving DecidableEq

/-- `OrderBook::apply_batch`: for each level with positive price, delegate to
`update_bid` / `update_ask`; finally set the book timestamp. -/
def OrderBook.apply_batch (ob : OrderBook) (batch : OrderBookBatchMessage) : OrderBook :=
  let ob := batch.bids.foldl
    (fun ob lvl => if 0 < lvl.price then ob.update_bid lvl.price lvl.size else ob) ob
  let ob := batch.asks.foldl
    (fun ob lvl => if 0 < lvl.price then ob.update_ask lvl.price lvl.size else ob) ob
  { ob with timestamp := batch.timestamp }

/-- `OrderBook::best_bid`: the highest-price bid, i.e. the last entry of the
ascending ladder. -/
def OrderBook.best_bid (ob : OrderBook) : Option (Int × Int) := ob.bids.getLast?

/-- `OrderBook::best_ask`: the lowest-price ask, i.e. the first entry of the
ascending ladder. -/
def OrderBook.best_ask (ob : OrderBook) : Option (Int × Int) := ob.asks.head?

/-! ## Order-book sync state machine (src/mm_app/src/orderbook_sync.rs) -/

/-- `struct OrderbookSyncState`.  `last_resync_attempt` (an `Instant` used
only by the wall-clock resync cooldown) is kept as an abstract optional
timestamp. -/
structure OrderbookSyncState where
  snapshot_last_update_id : Nat
  last_processed_update_id : Nat
  is_synchronized : Bool
  first_update_seen : Option Nat
  updates_since_snapshot : Nat
  consecutive_skipped_updates : Nat
  last_resync_attempt : Option Nat
  deriving DecidableEq

/-- `OrderbookSyncState::new`. -/
def OrderbookSyncState.new (snapshot_last_update_id : Nat) : OrderbookSyncState :=
  { snapshot_last_update_id := snapshot_last_update_id
    last_processed_update_id := 0
    is_synchronized := false
    first_update_seen := none
    updates_since_snapshot := 0
    consecutive_skipped_updates := 0
    last_resync_attempt := none }

/-- The two unconditional mutations `should_process_update` performs at the
top of its unsynchronized branch: record the first update id seen and count
the update. -/
def OrderbookSyncState.trackUnsync (s : OrderbookSyncState) (first_id : Nat) :
    OrderbookSyncState :=
  let s := if s.first_update_seen = none then { s with first_update_seen := some first_id }
           else s
  { s with updates_since_snapshot := s.updates_since_snapshot + 1 }

/-- `OrderbookSyncState::should_process_update`: returns the decision together
with the mutated state. -/
def OrderbookSyncState.should_process_update (s : OrderbookSyncState)
    (batch : OrderBookBatchMessage) : Bool × OrderbookSyncState :=
  let first_id := batch.first_update_id
  let final_id := batch.final_update_id
  let prev_id := batch.prev_update_id
  if s.is_synchronized = false then
    -- Track the first update ID we've seen
    let s := s.trackUnsync first_id
    -- Drop updates older than snapshot
    if final_id < s.snapshot_last_update_id then
      (false, { s with consecutive_skipped_updates := s.consecutive_skipped_updates + 1 })
    -- Find sync point: U <= lastUpdateId <= u
    else if first_id ≤ s.snapshot_last_update_id ∧ s.snapshot_last_update_id ≤ final_id then
      (true, { s with is_synchronized := true, last_processed_update_id := final_id,
                      consecutive_skipped_updates := 0 })
    else
      (false, { s with consecutive_skipped_updates := s.consecutive_skipped_updates + 1 })
  -- Validate continuity: pu should equal previous u
  else if prev_id ≠ 0 ∧ prev_id ≠ s.last_processed_update_id then
    (false, { s with is_synchronized := false,
                     consecutive_skipped_updates := s.consecutive_skipped_updates + 1 })
  else
    (true, { s with last_processed_update_id := final_id,
                    consecutive_skipped_updates := 0 })

/-- Fold a sequence of batches through the sync state machine, keeping only
the state. -/
def OrderbookSyncState.processAll (s : OrderbookSyncState)
    (batches : List OrderBookBatchMessage) : OrderbookSyncState :=
  batches.foldl (fun st b => (st.should_process_update b).2) s

/-- A batch is a sync point for snapshot id `S` when `U ≤ S ≤ u`. -/
def isSyncPoint (S : Nat) (b : OrderBookBatchMessage) : Prop :=
  b.first_update_id ≤ S ∧ S ≤ b.final_update_id

instance (S : Nat) (b : OrderBookBatchMessage) : Decidable (isSyncPoint S b) :=
  inferInstanceAs (Decidable (_ ∧ _))

/-! ### Helper lemmas about `should_process_update` -/

theorem trackUnsync_snapshot (s : OrderbookSyncState) (f : Nat) :
    (s.trackUnsync f).snapshot_last_update_id = s.snapshot_last_update_id := by
  simp only [OrderbookSyncState.trackUnsync]
  split <;> rfl

theorem trackUnsync_sync (s : OrderbookSyncState) (f : Nat) :
    (s.trackUnsync f).is_synchronized = s.is_synchronized := by
  simp only [OrderbookSyncState.trackUnsync]
  split <;> rfl

theorem spu_snapshot_eq (s : OrderbookSyncState) (b : OrderBookBatchMessage) :
    (s.should_process_update b).2.snapshot_last_update_id = s.snapshot_last_update_id := by
  simp only [OrderbookSyncState.should_process_update]
  split
  · split
    · exact trackUnsync_snapshot s b.first_update_id
    · split
      · exact trackUnsync_snapshot s b.first_update_id
      · exact trackUnsync_snapshot s b.first_update_id
  · split <;> rfl

theorem spu_unsync_skip (s : OrderbookSyncState) (b : OrderBookBatchMessage)
    (hsync : s.is_synchronized = false) (hnot : ¬ isSyncPoint s.snapshot_last_update_id b) :
    (s.should_process_update b).1 = false ∧
    (s.should_process_update b).2.is_synchronized = false := by
  simp only [OrderbookSyncState.should_process_update]
  rw [if_pos hsync]
  by_cases hlt : b.final_update_id < (s.trackUnsync b.first_update_id).snapshot_last_update_id
  · rw [if_pos hlt]
    exact ⟨rfl, (trackUnsync_sync s b.first_update_id).trans hsync⟩
  · rw [if_neg hlt, if_neg (by rw [trackUnsync_snapshot]; exact hnot)]
    exact ⟨rfl, (trackUnsync_sync s b.first_update_id).trans hsync⟩

theorem spu_unsync_accept (s : OrderbookSyncState) (b : OrderBookBatchMessage)
    (hsync : s.is_synchronized = false) (hsp : isSyncPoint s.snapshot_last_update_id b) :
    (s.should_process_update b).1 = true ∧
    (s.should_process_update b).2.is_synchronized = true ∧
    (s.should_process_update b).2.last_processed_update_id = b.final_update_id ∧
    (s.should_process_update b).2.consecutive_skipped_updates = 0 := by
  simp only [OrderbookSyncState.should_process_update]
  rw [if_pos hsync]
  rw [if_neg (by rw [trackUnsync_snapshot]; exact Nat.not_lt.mpr hsp.2),
      if_pos (by rw [trackUnsync_snapshot]; exact ⟨hsp.1, hsp.2⟩)]
  exact ⟨rfl, rfl, rfl, rfl⟩

theorem processAll_unsync (s : OrderbookSyncState)
    (batches : List OrderBookBatchMessage)
    (hsync : s.is_synchronized = false)
    (hall : ∀ b ∈ batches, ¬ isSyncPoint s.snapshot_last_update_id b) :
    (s.processAll batches).is_synchronized = false ∧
    (s.processAll batches).snapshot_last_update_id = s.snapshot_last_update_id := by
  induction batches generalizing s with
  | nil => exact ⟨hsync, rfl⟩
  | cons b rest ih =>
    have hb := hall b (List.mem_cons_self b rest)
    have hskip := spu_unsync_skip s b hsync hb
    have hsnap := spu_snapshot_eq s b
    have := ih (s.should_process_update b).2 hskip.2
      (fun x hx => by rw [hsnap]; exact hall x (List.mem_cons_of_mem b hx))
    simpa [OrderbookSyncState.processAll, hsnap] using this

/-! ### Claims C4, C5, C3, C9 -/

/-- The S1 scenario's snapshot-seeded book: `lastUpdateId = 100`,
bids `[(50000, 1.0)]`, asks `[(50100, 1.0)]` in fixed-point units. -/
def s1Book : OrderBook :=
  ((OrderBook.new "BTCUSDT").update_bid 5000000000000 100000000).update_ask
    5010000000000 100000000

/-- The S1 scenario's delta batch: `U = 95`, `u = 105`, `pu = 0`,
`b = [(50000, 1.5)]`. -/
def s1Batch : OrderBookBatchMessage :=
  { header := 3, exchange := 0, update_type := 1, encoding := 1, symbol_low := 0, symbol_high := 0
    timestamp := 1, first_update_id := 95, final_update_id := 105, prev_update_id := 0
    bids := [⟨5000000000000, 150000000⟩], asks := [] }

/-- **C4.** From `Unsynchronized`, every batch that is not a sync point is
skipped and leaves the state unsynchronized, and the first batch with
`U ≤ S ≤ u` is accepted, enters `Synchronized` with
`last_applied_u = u` and a reset skip counter; concretely, the S1 scenario
(snapshot `lastUpdateId = 100`, batch `U=95, u=105, pu=0, b=[(50000, 1.5)]`)
synchronizes and yields `best_bid() = (50000, 1.5)`. -/
theorem C4_first_sync_point_accepted (s : OrderbookSyncState)
    (pre : List OrderBookBatchMessage) (b : OrderBookBatchMessage)
    (hsync : s.is_synchronized = false)
    (hpre : ∀ x ∈ pre, ¬ isSyncPoint s.snapshot_last_update_id x)
    (hsp : isSyncPoint s.snapshot_last_update_id b) :
    (((s.processAll pre).should_process_update b).1 = true ∧
     ((s.processAll pre).should_process_update b).2.is_synchronized = true ∧
     ((s.processAll pre).should_process_update b).2.last_processed_update_id
        = b.final_update_id ∧
     ((s.processAll pre).should_process_update b).2.consecutive_skipped_updates = 0) ∧
    (((OrderbookSyncState.new 100).should_process_update s1Batch).1 = true ∧
     ((OrderbookSyncState.new 100).should_process_update s1Batch).2.is_synchronized = true ∧
     (s1Book.apply_batch s1Batch).best_bid = some (5000000000000, 150000000)) := by
  constructor
  · have hfold := processAll_unsync s pre hsync hpre
    exact spu_unsync_accept (s.processAll pre) b hfold.1 (hfold.2 ▸ hsp)
  · refine ⟨by decide, by decide, ?_⟩
    decide

/-- Witness for C4: the unsynchronized initial state for snapshot id 100, an
empty prefix, and the S1 batch. -/
theorem C4_first_sync_point_accepted_witness :
    ((((OrderbookSyncState.new 100).processAll []).should_process_update s1Batch).1 = true ∧
     (((OrderbookSyncState.new 100).processAll []).should_process_update
        s1Batch).2.is_synchronized = true ∧
     (((OrderbookSyncState.new 100).processAll []).should_process_update
        s1Batch).2.last_processed_update_id = s1Batch.final_update_id ∧
     (((OrderbookSyncState.new 100).processAll []).should_process_update
        s1Batch).2.consecutive_skipped_updates = 0) ∧
    (((OrderbookSyncState.new 100).should_process_update s1Batch).1 = true ∧
     ((OrderbookSyncState.new 100).should_process_update s1Batch).2.is_synchronized = true ∧
     (s1Book.apply_batch s1Batch).best_bid = some (5000000000000, 150000000)) :=
  C4_first_sync_point_accepted (OrderbookSyncState.new 100) [] s1Batch rfl
    (fun x hx => absurd hx (List.not_mem_nil x)) (by decide)

/-- The synchronized state of scenario S2 with `last_applied_u = 200`. -/
def s2State : OrderbookSyncState :=
  { snapshot_last_update_id := 100, last_processed_update_id := 200
    is_synchronized := true, first_update_seen := some 95
    updates_since_snapshot := 3, consecutive_skipped_updates := 0
    last_resync_attempt := none }

/-- A batch with the given sequence ids and no levels. -/
def idBatch (U u pu : Nat) : OrderBookBatchMessage :=
  { header := 3, exchange := 0, update_type := 1, encoding := 1, symbol_low := 0, symbol_high := 0
    timestamp := 2, first_update_id := U, final_update_id := u, prev_update_id := pu
    bids := [], asks := [] }

/-- **C5 counterexample.** The claim says that in `Synchronized` with
`last_applied_u = L`, *every* batch with `pu ≠ L` is skipped and the state
returns to `Unsynchronized`.  The code exempts `pu = 0`: in `Sync` with
`last_applied_u = 200`, the batch `U=202, u=210, pu=0` has `pu ≠ 200` yet is
*processed* and the state stays `Synchronized`. -/
theorem C5_pu_zero_processed_counterexample :
    s2State.is_synchronized = true ∧
    (idBatch 202 210 0).prev_update_id ≠ s2State.last_processed_update_id ∧
    (s2State.should_process_update (idBatch 202 210 0)).1 = true ∧
    (s2State.should_process_update (idBatch 202 210 0)).2.is_synchronized = true := by
  decide

/-- **C5 (amended).** In `Synchronized` with `last_applied_u = L`, a batch
with `pu ≠ 0` and `pu ≠ L` is skipped, the skip counter is incremented, and
the state returns to `Unsynchronized`; concretely, in `Sync` with
`last_applied_u = 200`, the batch `U=202, u=210, pu=199` is skipped and the
state becomes `Unsync`. -/
theorem C5_sequence_gap_desyncs (s : OrderbookSyncState) (b : OrderBookBatchMessage)
    (hsync : s.is_synchronized = true) (hpu0 : b.prev_update_id ≠ 0)
    (hgap : b.prev_update_id ≠ s.last_processed_update_id) :
    ((s.should_process_update b).1 = false ∧
     (s.should_process_update b).2.is_synchronized = false ∧
     (s.should_process_update b).2.consecutive_skipped_updates
        = s.consecutive_skipped_updates + 1) ∧
    ((s2State.should_process_update (idBatch 202 210 199)).1 = false ∧
     (s2State.should_process_update (idBatch 202 210 199)).2.is_synchronized = false) := by
  constructor
  · simp only [OrderbookSyncState.should_process_update, hsync]
    rw [if_neg (by simp), if_pos ⟨hpu0, hgap⟩]
    exact ⟨rfl, rfl, rfl⟩
  · constructor <;> decide

/-- Witness for C5 (amended) at the S2 scenario. -/
theorem C5_sequence_gap_desyncs_witness :
    (((s2State.should_process_update (idBatch 202 210 199)).1 = false ∧
      (s2State.should_process_update (idBatch 202 210 199)).2.is_synchronized = false ∧
      (s2State.should_process_update (idBatch 202 210 199)).2.consecutive_skipped_updates
        = s2State.consecutive_skipped_updates + 1) ∧
     ((s2State.should_process_update (idBatch 202 210 199)).1 = false ∧
      (s2State.should_process_update (idBatch 202 210 199)).2.is_synchronized = false)) :=
  C5_sequence_gap_desyncs s2State (idBatch 202 210 199) rfl (by decide) (by decide)

/-- **C3 counterexample.** The claim says `update_bid(p, q)` with `q < 0`
deletes the level at `p`.  In the code only `q == 0` deletes: from the empty
book, `update_bid(100, −5)` *stores* the level `(100, −5)`. -/
theorem C3_negative_size_stored_counterexample :
    mapGet 100 (((OrderBook.new "BTCUSDT").update_bid 100 (-5)).bids) = some (-5) ∧
    mapGet 100 (((OrderBook.new "BTCUSDT").update_ask 100 (-5)).asks) = some (-5) := by
  decide

/-- A batch with explicit levels and unknown (zero) sequence ids. -/
def levelBatch (sym ts : Nat) (bids asks : List PriceLevel) : OrderBookBatchMessage :=
  { header := 3, exchange := 0, update_type := 1, encoding := 1, symbol_low := sym, symbol_high := 0
    timestamp := ts, first_update_id := 0, final_update_id := 0, prev_update_id := 0
    bids := bids, asks := asks }

/-- **C3 (amended).** `update_bid(p, q)` and `update_ask(p, q)` with `q ≠ 0`
(including every `q < 0`) insert or overwrite the level at `p` with size `q`;
only `q = 0` deletes, and `apply_batch` passes negative sizes through
unchanged to insertion for positive prices. -/
theorem C3_negative_size_inserted (ob : OrderBook) (p q : Int) (hq : q < 0) :
    mapGet p (ob.update_bid p q).bids = some q ∧
    mapGet p (ob.update_ask p q).asks = some q ∧
    (0 < p → ∀ sym ts,
      mapGet p (ob.apply_batch (levelBatch sym ts [⟨p, q⟩] [])).bids = some q) := by
  have hget : ∀ l : Ladder, mapGet p (mapInsert p q l) = some q := by
    intro l
    induction l with
    | nil => simp [mapInsert, mapGet]
    | cons kv rest ih =>
      by_cases h1 : p < kv.1
      · simp [mapInsert, mapGet, h1]
      · by_cases h2 : p = kv.1
        · simp [mapInsert, mapGet, h1, h2]
        · simp [mapInsert, mapGet, h1, h2, ih]
  refine ⟨?_, ?_, ?_⟩
  · simp only [OrderBook.update_bid, if_neg hq.ne]
    exact hget ob.bids
  · simp only [OrderBook.update_ask, if_neg hq.ne]
    exact hget ob.asks
  · intro hp sym ts
    simp only [OrderBook.apply_batch, levelBatch, List.foldl, if_pos hp]
    simp only [OrderBook.update_bid, if_neg hq.ne]
    exact hget _

/-- Witness for C3 (amended) at `p = 100`, `q = −5` on the empty book. -/
theorem C3_negative_size_inserted_witness :
    mapGet 100 ((OrderBook.new "X").update_bid 100 (-5)).bids = some (-5) ∧
    mapGet 100 ((OrderBook.new "X").update_ask 100 (-5)).asks = some (-5) ∧
    (0 < (100 : Int) → ∀ sym ts,
      mapGet 100 ((OrderBook.new "X").apply_batch
        (levelBatch sym ts [⟨100, -5⟩] [])).bids = some (-5)) :=
  C3_negative_size_inserted (OrderBook.new "X") 100 (-5) (by decide)

/-! ### Claim C9: no zero-size levels, zero on absent level is a no-op -/

/-- A single order-book mutation. -/
inductive BookOp where
  | updBid (price quantity : Int)
  | updAsk (price quantity : Int)
  deriving DecidableEq

/-- Apply a sequence of `update_bid` / `update_ask` operations. -/
def OrderBook.applyOps (ob : OrderBook) (ops : List BookOp) : OrderBook :=
  ops.foldl
    (fun ob op =>
      match op with
      | .updBid p q => ob.update_bid p q
      | .updAsk p q => ob.update_ask p q)
    ob

theorem mem_mapInsert {x : Int × Int} {k v : Int} {l : Ladder}
    (hx : x ∈ mapInsert k v l) : x = (k, v) ∨ x ∈ l := by
  induction l with
  | nil => simpa [mapInsert] using hx
  | cons kv rest ih =>
    by_cases h1 : k < kv.1
    · simpa [mapInsert, h1] using hx
    · by_cases h2 : k = kv.1
      · simp only [mapInsert, if_neg h1, if_pos h2, List.mem_cons] at hx
        rcases hx with h | h
        · exact Or.inl h
        · exact Or.inr (List.mem_cons_of_mem kv h)
      · simp only [mapInsert, if_neg h1, if_neg h2, List.mem_cons] at hx
        rcases hx with h | h
        · exact Or.inr (h ▸ List.mem_cons_self kv rest)
        · rcases ih h with h' | h'
          · exact Or.inl h'
          · exact Or.inr (List.mem_cons_of_mem kv h')

theorem mem_mapRemove {x : Int × Int} {k : Int} {l : Ladder}
    (hx : x ∈ mapRemove k l) : x ∈ l := by
  induction l with
  | nil => simp [mapRemove] at hx
  | cons kv rest ih =>
    by_cases h1 : k = kv.1
    · simp only [mapRemove, if_pos h1] at hx
      exact List.mem_cons_of_mem kv hx
    · simp only [mapRemove, if_neg h1, List.mem_cons] at hx
      rcases hx with h | h
      · exact h ▸ List.mem_cons_self kv rest
      · exact List.mem_cons_of_mem kv (ih h)

/-- Every level of a price ladder has nonzero size. -/
abbrev noZeroSize (l : Ladder) : Prop := ∀ kv ∈ l, kv.2 ≠ 0

theorem update_bid_bids (ob : OrderBook) (p q : Int) :
    (ob.update_bid p q).bids = if q = 0 then mapRemove p ob.bids else mapInsert p q ob.bids := by
  unfold OrderBook.update_bid
  split <;> simp_all

theorem update_bid_asks (ob : OrderBook) (p q : Int) :
    (ob.update_bid p q).asks = ob.asks := by
  unfold OrderBook.update_bid
  split <;> rfl

theorem update_ask_asks (ob : OrderBook) (p q : Int) :
    (ob.update_ask p q).asks = if q = 0 then mapRemove p ob.asks else mapInsert p q ob.asks := by
  unfold OrderBook.update_ask
  split <;> simp_all

theorem update_ask_bids (ob : OrderBook) (p q : Int) :
    (ob.update_ask p q).bids = ob.bids := by
  unfold OrderBook.update_ask
  split <;> rfl

theorem noZeroSize_update {l : Ladder} (hl : noZeroSize l) (p q : Int) :
    noZeroSize (if q = 0 then mapRemove p l else mapInsert p q l) := by
  intro kv hkv
  by_cases hq : q = 0
  · rw [if_pos hq] at hkv
    exact hl kv (mem_mapRemove hkv)
  · rw [if_neg hq] at hkv
    rcases mem_mapInsert hkv with h | h
    · rw [h]; exact hq
    · exact hl kv h

theorem applyOps_noZeroSize (ob : OrderBook) (ops : List BookOp)
    (hb : noZeroSize ob.bids) (ha : noZeroSize ob.asks) :
    noZeroSize (ob.applyOps ops).bids ∧ noZeroSize (ob.applyOps ops).asks := by
  induction ops generalizing ob with
  | nil => exact ⟨hb, ha⟩
  | cons op rest ih =>
    rcases op with ⟨p, q⟩ | ⟨p, q⟩
    · exact ih (ob.update_bid p q)
        (by rw [update_bid_bids]; exact noZeroSize_update hb p q)
        (by rw [update_bid_asks]; exact ha)
    · exact ih (ob.update_ask p q)
        (by rw [update_ask_bids]; exact hb)
        (by rw [update_ask_asks]; exact noZeroSize_update ha p q)

theorem mapRemove_absent {k : Int} {l : Ladder} (h : mapGet k l = none) :
    mapRemove k l = l := by
  induction l with
  | nil => rfl
  | cons kv rest ih =>
    by_cases h1 : k = kv.1
    · simp [mapGet, h1] at h
    · simp only [mapGet, if_neg h1] at h
      simp [mapRemove, if_neg h1, ih h]

/-- **C9.** After any sequence of `update_bid` / `update_ask` operations on a
fresh book, no stored level has size `0`; and `update_bid(px, 0)` /
`update_ask(px, 0)` at an absent price leave the book unchanged. -/
theorem C9_no_zero_size_levels (sym : String) (ops : List BookOp) :
    (∀ kv ∈ ((OrderBook.new sym).applyOps ops).bids, kv.2 ≠ 0) ∧
    (∀ kv ∈ ((OrderBook.new sym).applyOps ops).asks, kv.2 ≠ 0) ∧
    (∀ ob : OrderBook, ∀ px, mapGet px ob.bids = none → ob.update_bid px 0 = ob) ∧
    (∀ ob : OrderBook, ∀ px, mapGet px ob.asks = none → ob.update_ask px 0 = ob) := by
  have hinv := applyOps_noZeroSize (OrderBook.new sym) ops
    (by intro kv hkv; simp [OrderBook.new] at hkv)
    (by intro kv hkv; simp [OrderBook.new] at hkv)
  refine ⟨hinv.1, hinv.2, ?_, ?_⟩
  · intro ob px h
    simp [OrderBook.update_bid, mapRemove_absent h]
  · intro ob px h
    simp [OrderBook.update_ask, mapRemove_absent h]

/-- Witness for C9 on a concrete operation sequence and a concrete absent
price. -/
theorem C9_no_zero_size_levels_witness :
    (∀ kv ∈ ((OrderBook.new "BTCUSDT").applyOps
        [.updBid 100 5, .updBid 100 0, .updAsk 200 7]).bids, kv.2 ≠ 0) ∧
    (∀ kv ∈ ((OrderBook.new "BTCUSDT").applyOps
        [.updBid 100 5, .updBid 100 0, .updAsk 200 7]).asks, kv.2 ≠ 0) ∧
    ((OrderBook.new "BTCUSDT").update_bid 42 0 = OrderBook.new "BTCUSDT" ∧
     (OrderBook.new "BTCUSDT").update_ask 42 0 = OrderBook.new "BTCUSDT") := by
  have h := C9_no_zero_size_levels "BTCUSDT" [.updBid 100 5, .updBid 100 0, .updAsk 200 7]
  exact ⟨h.1, h.2.1, h.2.2.1 (OrderBook.new "BTCUSDT") 42 (by decide),
    h.2.2.2 (OrderBook.new "BTCUSDT") 42 (by decide)⟩

/-! ## CRC-32C (src/mm_binary/src/checksum.rs)

`u32` values are modelled as `Nat` below `2^32`; `!x` on `u32` is
`x ^^^ 0xFFFFFFFF`. -/

/-- `const CRC32C_POLYNOMIAL: u32 = 0x1EDC6F41`. -/
def CRC32C_POLYNOMIAL : Nat := 0x1EDC6F41

/-- One iteration of the inner loop of `generate_crc32c_table`. -/
def crcTableStep (poly crc : Nat) : Nat :=
  if crc &&& 1 = 1 then (crc >>> 1) ^^^ poly else crc >>> 1

/-- `n` iterations of the inner loop. -/
def crcTableSteps (poly : Nat) : Nat → Nat → Nat
  | 0, crc => crc
  | n + 1, crc => crcTableSteps poly n (crcTableStep poly crc)

/-- `generate_crc32c_table()[i]`: eight inner-loop iterations starting from
`i`, using the (non-reflected) Castagnoli constant `0x1EDC6F41`. -/
def generate_crc32c_table (i : Nat) : Nat := crcTableSteps CRC32C_POLYNOMIAL 8 i

/-- `software_crc32c`: table-driven CRC over a byte sequence. -/
def software_crc32c (data : List Nat) : Nat :=
  let crc := data.foldl
    (fun crc byte => (crc >>> 8) ^^^ generate_crc32c_table ((crc ^^^ byte) &&& 0xFF))
    0xFFFFFFFF
  crc ^^^ 0xFFFFFFFF

/-- Modelled from the spec: the standard reflected CRC-32C of the Castagnoli
polynomial `0x1EDC6F41`, i.e. the table-driven right-shift algorithm run with
the *bit-reversed* polynomial constant `0x82F63B78`.  This is the function
the x86 SSE4.2 `_mm_crc32_u8`/`_mm_crc32_u64` hardware path computes
(`hardware_crc32c_x86` is an intrinsic wrapper with no Rust source to embed)
and the function whose check value on `"123456789"` is `0xE3069283`. -/
def crc32c_reference (data : List Nat) : Nat :=
  let crc := data.foldl
    (fun crc byte => (crc >>> 8) ^^^ crcTableSteps 0x82F63B78 8 ((crc ^^^ byte) &&& 0xFF))
    0xFFFFFFFF
  crc ^^^ 0xFFFFFFFF

/-- The CRC check bytes: `b"123456789"`. -/
def crcCheckBytes : List Nat := [0x31, 0x32, 0x33, 0x34, 0x35, 0x36, 0x37, 0x38, 0x39]

/-- **C2 (refuted — code bug).** The claim says `software_crc32c` computes
standard CRC-32C, whose check value on `"123456789"` is `0xE3069283`.  The
table generator runs the reflected (right-shift) algorithm with the
*non-reflected* polynomial constant `0x1EDC6F41` instead of the reversed
constant `0x82F63B78`, so on `"123456789"` the software path yields
`0xF28417BE`, not the CRC-32C check value `0xE3069283` that the reference
definition (and the SSE4.2 hardware path) produces; the code's own
`test_software_vs_hardware` asserts software = hardware on x86. -/
theorem C2_software_crc32c_wrong_polynomial :
    software_crc32c crcCheckBytes = 0xF28417BE ∧
    crc32c_reference crcCheckBytes = 0xE3069283 ∧
    software_crc32c crcCheckBytes ≠ crc32c_reference crcCheckBytes := by
  refine ⟨by decide, by decide, by decide⟩

/-! ## Wire serialization (src/mm_binary/src/orderbook_message.rs,
src/mm_binary/src/messages.rs)

Byte buffers are lists of naturals below 256; `to_le_bytes`/`from_le_bytes`
are explicit base-256 little-endian conversions. -/

/-- `enum ProtocolError` (src/mm_binary/src/errors.rs). -/
inductive ProtocolError where
  | InvalidLength (expected actual : Nat)
  | InvalidAlignment (address : Nat)
  | InvalidChecksum (expected actual : Nat)
  | InvalidHeader (byte : Nat)
  | InvalidExchange (id : Nat)
  | InvalidEncodingScheme (scheme : Nat)
  | StringTooLong (length max : Nat)
  | InvalidCharacter (char : Char) (position : Nat)
  | InvalidMessageType (msg_type : Nat)
  | BufferTooSmall (required actual : Nat)
  deriving DecidableEq

/-- Little-endian serialization of a `w`-byte unsigned integer. -/
def leBytes (w n : Nat) : List Nat := (List.range w).map (fun i => n / 256 ^ i % 256)

/-- `uNN::from_le_bytes`. -/
def fromLEBytes (bytes : List Nat) : Nat := bytes.foldr (fun b acc => b + 256 * acc) 0

/-- `i64::to_le_bytes`: two's-complement little-endian. -/
def i64leBytes (x : Int) : List Nat := leBytes 8 (x % 2 ^ 64).toNat

/-- `i64::from_le_bytes`. -/
def i64FromLEBytes (bytes : List Nat) : Int :=
  let n := fromLEBytes bytes
  if n < 2 ^ 63 then (n : Int) else (n : Int) - 2 ^ 64

/-- `PriceLevel::to_bytes`. -/
def PriceLevel.to_bytes (lvl : PriceLevel) : List Nat :=
  i64leBytes lvl.price ++ i64leBytes lvl.size

/-- `PriceLevel::from_bytes`. -/
def PriceLevel.from_bytes (bytes : List Nat) : Except ProtocolError PriceLevel :=
  if bytes.length < 16 then .error (.BufferTooSmall 16 bytes.length)
  else .ok ⟨i64FromLEBytes (bytes.take 8), i64FromLEBytes ((bytes.drop 8).take 8)⟩

/-- `checksum::calculate_crc32c`: dispatches to the SSE4.2 hardware path when
available, otherwise to `software_crc32c`; the software path is the one with
Rust source and is embedded here (C2 records that the two disagree). -/
def calculate_crc32c (data : List Nat) : Nat := software_crc32c data

/-- The serialized 32-byte header plus level payload of
`OrderBookBatchMessage::to_bytes` (everything before the CRC).  The header
counts are the vector lengths cast `as u16`. -/
def OrderBookBatchMessage.payloadBytes (m : OrderBookBatchMessage) : List Nat :=
  [m.header, m.exchange, m.update_type, m.encoding]
    ++ leBytes 2 (m.bids.length % 2 ^ 16) ++ leBytes 2 (m.asks.length % 2 ^ 16)
    ++ leBytes 8 m.symbol_low ++ leBytes 8 m.symbol_high ++ leBytes 8 m.timestamp
    ++ (m.bids.map PriceLevel.to_bytes).flatten
    ++ (m.asks.map PriceLevel.to_bytes).flatten

/-- `OrderBookBatchMessage::to_bytes`: payload followed by the appended
little-endian CRC-32C of the payload. -/
def OrderBookBatchMessage.to_bytes (m : OrderBookBatchMessage) : List Nat :=
  let bytes := m.payloadBytes
  bytes ++ leBytes 4 (calculate_crc32c bytes)

/-- The level-parsing loop of `OrderBookBatchMessage::from_bytes`, advancing
16 bytes per level. -/
def parseLevels : Nat → List Nat → Except ProtocolError (List PriceLevel)
  | 0, _ => .ok []
  | n + 1, bytes =>
    match PriceLevel.from_bytes bytes with
    | .error e => .error e
    | .ok lvl =>
      match parseLevels n (bytes.drop 16) with
      | .error e => .error e
      | .ok rest => .ok (lvl :: rest)

/-- `OrderBookBatchMessage::from_bytes`: length check, CRC check, message
type check, then header and level parsing.  The decoded sequence ids are zero
(the wire format of this version carries none; the spec says consumers treat
zero as "unknown sequence"). -/
def OrderBookBatchMessage.from_bytes (bytes : List Nat) :
    Except ProtocolError OrderBookBatchMessage :=
  if bytes.length < 32 + 4 then .error (.BufferTooSmall (32 + 4) bytes.length)
  else
    let crc_offset := bytes.length - 4
    let expected_crc := fromLEBytes (bytes.drop crc_offset)
    let actual_crc := calculate_crc32c (bytes.take crc_offset)
    if expected_crc ≠ actual_crc then .error (.InvalidChecksum expected_crc actual_crc)
    else if bytes.getD 0 0 ≠ 3 then .error (.InvalidMessageType (bytes.getD 0 0))
    else
      let num_bids := fromLEBytes ((bytes.drop 4).take 2)
      let num_asks := fromLEBytes ((bytes.drop 6).take 2)
      match parseLevels num_bids (bytes.drop 32) with
      | .error e => .error e
      | .ok bids =>
        match parseLevels num_asks (bytes.drop (32 + 16 * num_bids)) with
        | .error e => .error e
        | .ok asks =>
          .ok { header := bytes.getD 0 0, exchange := bytes.getD 1 0
                update_type := bytes.getD 2 0, encoding := bytes.getD 3 0
                symbol_low := fromLEBytes ((bytes.drop 8).take 8)
                symbol_high := fromLEBytes ((bytes.drop 16).take 8)
                timestamp := fromLEBytes ((bytes.drop 24).take 8)
                first_update_id := 0, final_update_id := 0, prev_update_id := 0
                bids := bids, asks := asks }

/-- `struct MarketDataMessage`. -/
structure MarketDataMessage where
  header : Nat
  sequence : Nat
  symbol_low : Nat
  symbol_high : Nat
  timestamp : Nat
  bid_price : Int
  ask_price : Int
  bid_size : Int
  ask_size : Int
  crc32 : Nat
  deriving DecidableEq

/-- The first 64 bytes of the `repr(C)` layout of `MarketDataMessage`
(header, sequence, 6 zero pad bytes, then the little-endian scalar fields;
the CRC and final pad are outside this window). -/
def MarketDataMessage.bytes64 (m : MarketDataMessage) : List Nat :=
  [m.header, m.sequence, 0, 0, 0, 0, 0, 0]
    ++ leBytes 8 m.symbol_low ++ leBytes 8 m.symbol_high ++ leBytes 8 m.timestamp
    ++ i64leBytes m.bid_price ++ i64leBytes m.ask_price
    ++ i64leBytes m.bid_size ++ i64leBytes m.ask_size

/-- `MarketDataMessage::calculate_crc32`: CRC-32C over the first 64 bytes. -/
def MarketDataMessage.calculate_crc32 (m : MarketDataMessage) : Nat :=
  calculate_crc32c m.bytes64

/-- `MarketDataMessage::validate_checksum`. -/
def MarketDataMessage.validate_checksum (m : MarketDataMessage) :
    Except ProtocolError Unit :=
  if m.calculate_crc32 ≠ m.crc32 then
    .error (.InvalidChecksum m.crc32 m.calculate_crc32)
  else .ok ()

/-- Flip bit `bitPos` of the byte at `bytePos` of a buffer. -/
def flipBit (bytes : List Nat) (bytePos bitPos : Nat) : List Nat :=
  bytes.set bytePos ((bytes.getD bytePos 0) ^^^ (1 <<< bitPos))

/-! ### Bounds and byte-list lemmas for C8 -/

theorem crcTableStep_lt {poly crc : Nat} (hp : poly < 2 ^ 32) (hc : crc < 2 ^ 32) :
    crcTableStep poly crc < 2 ^ 32 := by
  unfold crcTableStep
  have hs : crc >>> 1 < 2 ^ 32 :=
    lt_of_le_of_lt (by rw [Nat.shiftRight_eq_div_pow]; exact Nat.div_le_self _ _) hc
  split
  · exact Nat.xor_lt_two_pow hs hp
  · exact hs

theorem crcTableSteps_lt {poly : Nat} (hp : poly < 2 ^ 32) (n : Nat) {crc : Nat}
    (hc : crc < 2 ^ 32) : crcTableSteps poly n crc < 2 ^ 32 := by
  induction n generalizing crc with
  | zero => exact hc
  | succ k ih => exact ih (crcTableStep_lt hp hc)

theorem software_crc32c_lt (data : List Nat) : software_crc32c data < 2 ^ 32 := by
  unfold software_crc32c
  have hfold : ∀ (l : List Nat) (acc : Nat), acc < 2 ^ 32 →
      l.foldl (fun crc byte =>
        (crc >>> 8) ^^^ generate_crc32c_table ((crc ^^^ byte) &&& 0xFF)) acc < 2 ^ 32 := by
    intro l
    induction l with
    | nil => intro acc h; exact h
    | cons b t ih =>
      intro acc h
      refine ih _ (Nat.xor_lt_two_pow ?_ ?_)
      · exact lt_of_le_of_lt (by rw [Nat.shiftRight_eq_div_pow]; exact Nat.div_le_self _ _) h
      · exact crcTableSteps_lt (by norm_num [CRC32C_POLYNOMIAL]) 8
          (lt_of_le_of_lt (Nat.and_le_right) (by norm_num))
  exact Nat.xor_lt_two_pow (hfold data 0xFFFFFFFF (by norm_num)) (by norm_num)

theorem xor_shift_ne (d i : Nat) : d ^^^ (1 <<< i) ≠ d := by
  intro h
  have h2 : (1 <<< i) = 0 := by
    have h3 := congrArg (fun y => d ^^^ y) h
    simpa [← Nat.xor_assoc, Nat.xor_self, Nat.zero_xor] using h3
  have h4 : 0 < 1 <<< i := by
    rw [Nat.shiftLeft_eq, Nat.one_mul]
    exact Nat.pos_pow_of_pos i (by norm_num)
  omega

theorem length_leBytes (w n : Nat) : (leBytes w n).length = w := by
  simp [leBytes]

theorem setAppend (l1 l2 : List Nat) (n v : Nat) :
    (l1 ++ l2).set (l1.length + n) v = l1 ++ l2.set n v := by
  induction l1 with
  | nil => simp
  | cons a t ih => simp [List.set, Nat.succ_add, ih]

theorem getDAppend (l1 l2 : List Nat) (n : Nat) :
    (l1 ++ l2).getD (l1.length + n) 0 = l2.getD n 0 := by
  induction l1 with
  | nil => simp
  | cons a t ih => simpa [Nat.succ_add] using ih

theorem takeAppend (l1 l2 : List Nat) : (l1 ++ l2).take l1.length = l1 := by
  induction l1 with
  | nil => simp
  | cons a t ih => simp [ih]

theorem dropAppend (l1 l2 : List Nat) : (l1 ++ l2).drop l1.length = l2 := by
  induction l1 with
  | nil => simp
  | cons a t ih => simp [ih]

theorem payloadBytes_length_ge (m : OrderBookBatchMessage) :
    32 ≤ m.payloadBytes.length := by
  simp only [OrderBookBatchMessage.payloadBytes, List.length_append, length_leBytes,
    List.length_cons, List.length_nil]
  omega

theorem flipBit_cons_zero (a : Nat) (l : List Nat) (i : Nat) :
    flipBit (a :: l) 0 i = (a ^^^ (1 <<< i)) :: l := by
  simp [flipBit]

theorem flipBit_cons_succ (a : Nat) (l : List Nat) (n i : Nat) :
    flipBit (a :: l) (n + 1) i = a :: flipBit l n i := by
  simp [flipBit]

/-- Flipping bit `i` of digit `j` of the four-byte little-endian encoding of
`c < 2^32` changes the value read back. -/
theorem fromLE_flip_ne (c : Nat) (hc : c < 2 ^ 32) (j i : Nat) (hj : j < 4) (hi : i < 8) :
    fromLEBytes (flipBit (leBytes 4 c) j i) ≠ c := by
  have hle : leBytes 4 c
      = [c % 256, c / 256 % 256, c / 65536 % 256, c / 16777216 % 256] := by
    simp only [leBytes, List.range_succ, List.range_zero]
    norm_num
  have hxlt : ∀ d : Nat, d < 256 → d ^^^ (1 <<< i) < 256 := by
    intro d hd
    have h1 : (1 <<< i) < 2 ^ 8 := by
      rw [Nat.shiftLeft_eq, Nat.one_mul]
      exact Nat.pow_lt_pow_right (by norm_num) hi
    exact Nat.xor_lt_two_pow (by simpa using hd) h1
  have hc32 : c < 4294967296 := by simpa using hc
  rw [hle]
  interval_cases j
  · rw [flipBit_cons_zero]
    have hne := xor_shift_ne (c % 256) i
    have hlt := hxlt (c % 256) (Nat.mod_lt _ (by norm_num))
    simp only [fromLEBytes, List.foldr]
    omega
  · rw [flipBit_cons_succ, flipBit_cons_zero]
    have hne := xor_shift_ne (c / 256 % 256) i
    have hlt := hxlt (c / 256 % 256) (Nat.mod_lt _ (by norm_num))
    simp only [fromLEBytes, List.foldr]
    omega
  · rw [flipBit_cons_succ, flipBit_cons_succ, flipBit_cons_zero]
    have hne := xor_shift_ne (c / 65536 % 256) i
    have hlt := hxlt (c / 65536 % 256) (Nat.mod_lt _ (by norm_num))
    simp only [fromLEBytes, List.foldr]
    omega
  · rw [flipBit_cons_succ, flipBit_cons_succ, flipBit_cons_succ, flipBit_cons_zero]
    have hne := xor_shift_ne (c / 16777216 % 256) i
    have hlt := hxlt (c / 16777216 % 256) (Nat.mod_lt _ (by norm_num))
    simp only [fromLEBytes, List.foldr]
    omega

/-- **C8.** Flipping exactly one bit of the carried CRC-32C bytes of an
encoded message makes decoding fail with `InvalidChecksum`: for
`OrderBookBatchMessage`, flipping any bit of the last four bytes of
`to_bytes` makes `from_bytes` return `InvalidChecksum`; for
`MarketDataMessage`, flipping any bit of a validating message's `crc32`
field makes `validate_checksum` return `InvalidChecksum`. -/
theorem C8_crc_bit_flip_rejected :
    (∀ (m : OrderBookBatchMessage) (j i : Nat), j < 4 → i < 8 →
      ∃ e a, OrderBookBatchMessage.from_bytes
          (flipBit m.to_bytes (m.to_bytes.length - 4 + j) i)
        = .error (.InvalidChecksum e a)) ∧
    (∀ (md : MarketDataMessage) (i : Nat), i < 32 →
      md.validate_checksum = .ok () →
      ∃ e a, MarketDataMessage.validate_checksum
          { md with crc32 := md.crc32 ^^^ (1 <<< i) }
        = .error (.InvalidChecksum e a)) := by
  constructor
  · intro m j i hj hi
    set P := m.payloadBytes with hP
    set c := calculate_crc32c P with hc
    have hlenP : 32 ≤ P.length := payloadBytes_length_ge m
    have hlen : m.to_bytes.length = P.length + 4 := by
      simp [OrderBookBatchMessage.to_bytes, length_leBytes, ← hP, ← hc]
    have hpos : m.to_bytes.length - 4 + j = P.length + j := by omega
    have hbytes : flipBit m.to_bytes (m.to_bytes.length - 4 + j) i
        = P ++ flipBit (leBytes 4 c) j i := by
      rw [hpos]
      show (P ++ leBytes 4 c).set (P.length + j)
          (((P ++ leBytes 4 c).getD (P.length + j) 0) ^^^ (1 <<< i)) = _
      rw [getDAppend, setAppend]
      rfl
    rw [hbytes]
    have hflen : (flipBit (leBytes 4 c) j i).length = 4 := by
      simp [flipBit, length_leBytes]
    have hblen : (P ++ flipBit (leBytes 4 c) j i).length = P.length + 4 := by
      simp [hflen]
    refine ⟨fromLEBytes (flipBit (leBytes 4 c) j i), c, ?_⟩
    unfold OrderBookBatchMessage.from_bytes
    rw [if_neg (by omega)]
    have hdrop : (P ++ flipBit (leBytes 4 c) j i).drop
        ((P ++ flipBit (leBytes 4 c) j i).length - 4) = flipBit (leBytes 4 c) j i := by
      rw [hblen]
      have h4 : P.length + 4 - 4 = P.length := by omega
      rw [h4, dropAppend]
    have htake : (P ++ flipBit (leBytes 4 c) j i).take
        ((P ++ flipBit (leBytes 4 c) j i).length - 4) = P := by
      rw [hblen]
      have h4 : P.length + 4 - 4 = P.length := by omega
      rw [h4, takeAppend]
    simp only [hdrop, htake]
    rw [if_pos (fromLE_flip_ne c (software_crc32c_lt P) j i hj hi)]
  · intro md i hi hok
    have hval : md.calculate_crc32 = md.crc32 := by
      by_contra hne
      simp [MarketDataMessage.validate_checksum, if_pos hne] at hok
    refine ⟨md.crc32 ^^^ (1 <<< i), md.crc32, ?_⟩
    have hcalc : MarketDataMessage.calculate_crc32 { md with crc32 := md.crc32 ^^^ (1 <<< i) }
        = md.calculate_crc32 := rfl
    unfold MarketDataMessage.validate_checksum
    rw [hcalc, hval]
    rw [if_pos (Ne.symm (xor_shift_ne md.crc32 i))]

set_option maxRecDepth 100000 in
/-- Witness for C8: a concrete empty batch with bit 0 of its first CRC byte
flipped, and a concrete validating market-data message with bit 5 of its
stored CRC flipped. -/
theorem C8_crc_bit_flip_rejected_witness :
    (∃ e a, OrderBookBatchMessage.from_bytes
        (flipBit (idBatch 1 2 3).to_bytes ((idBatch 1 2 3).to_bytes.length - 4 + 0) 0)
      = .error (.InvalidChecksum e a)) ∧
    (∃ e a, MarketDataMessage.validate_checksum
        { header := 0, sequence := 1, symbol_low := 2, symbol_high := 3, timestamp := 4
          bid_price := 5, ask_price := 6, bid_size := 7, ask_size := 8
          crc32 := MarketDataMessage.calculate_crc32
            { header := 0, sequence := 1, symbol_low := 2, symbol_high := 3, timestamp := 4
              bid_price := 5, ask_price := 6, bid_size := 7, ask_size := 8, crc32 := 0 }
            ^^^ (1 <<< 5) }
      = .error (.InvalidChecksum e a)) := by
  constructor
  · exact C8_crc_bit_flip_rejected.1 (idBatch 1 2 3) 0 0 (by decide) (by decide)
  · exact C8_crc_bit_flip_rejected.2
      { header := 0, sequence := 1, symbol_low := 2, symbol_high := 3, timestamp := 4
        bid_price := 5, ask_price := 6, bid_size := 7, ask_size := 8
        crc32 := MarketDataMessage.calculate_crc32
          { header := 0, sequence := 1, symbol_low := 2, symbol_high := 3, timestamp := 4
            bid_price := 5, ask_price := 6, bid_size := 7, ask_size := 8, crc32 := 0 } }
      5 (by decide) (by rfl)

/-! ## Symbol compression (src/mm_binary/src/compressed_string.rs)

Strings are modelled as `List Char` (inputs are ASCII so Rust's byte length
`s.len()` equals the character count on every accepted input); `u64` shifts
wrap modulo `2^64` as in Rust. -/

def U64_MOD : Nat := 2 ^ 64

/-- `struct CompressedString`: a 128-bit packed identifier. -/
structure CompressedString where
  low : Nat
  high : Nat
  deriving DecidableEq

/-- `enum EncodingScheme`. -/
inductive EncodingScheme where
  | Hex4Bit
  | Alphabetic5Bit
  | AlphaNumeric6Bit
  | Ascii7Bit
  deriving DecidableEq

/-- `CompressedString::new`. -/
def CompressedString.new : CompressedString := ⟨0, 0⟩

/-- `char::is_ascii_hexdigit`. -/
def isAsciiHexdigit (ch : Char) : Bool :=
  ('0' ≤ ch ∧ ch ≤ '9') ∨ ('A' ≤ ch ∧ ch ≤ 'F') ∨ ('a' ≤ ch ∧ ch ≤ 'f')

/-- The validation loop `for (i, ch) in s.chars().enumerate()`: first
character failing `pred`, with its position. -/
def findInvalid (pred : Char → Bool) : List Char → Nat → Option (Char × Nat)
  | [], _ => none
  | ch :: rest, i => if pred ch then findInvalid pred rest (i + 1) else some (ch, i)

/-- The 4-bit value `encode_hex4bit` assigns to a hex character
(`'0'..='9' ↦ 1..=10`, `'A'..='F'`/`'a'..='f' ↦ 11..=16`; note `'F' ↦ 16`,
which does not fit in four bits). -/
def hexVal (ch : Char) : Nat :=
  if '0' ≤ ch ∧ ch ≤ '9' then ch.toNat - '0'.toNat + 1
  else if 'A' ≤ ch ∧ ch ≤ 'F' then ch.toNat - 'A'.toNat + 11
  else ch.toNat - 'a'.toNat + 11

/-- The bit-packing loop of `encode_hex4bit`. -/
def hexPack : List Char → Nat → Nat → Nat → CompressedString
  | [], low, high, _ => ⟨low, high⟩
  | ch :: rest, low, high, bit_pos =>
    let value := hexVal ch
    if bit_pos < 64 ∧ bit_pos + 4 ≤ 64 then
      hexPack rest (low ||| ((value <<< bit_pos) % U64_MOD)) high (bit_pos + 4)
    else if 64 ≤ bit_pos then
      hexPack rest low (high ||| ((value <<< (bit_pos - 64)) % U64_MOD)) (bit_pos + 4)
    else
      let bits_in_low := 64 - bit_pos
      hexPack rest (low ||| ((value <<< bit_pos) % U64_MOD))
        (high ||| (value >>> bits_in_low)) (bit_pos + 4)

/-- `CompressedString::encode_hex4bit`. -/
def encode_hex4bit (s : List Char) : Except ProtocolError CompressedString :=
  if 32 < s.length then .error (.StringTooLong s.length 32)
  else
    match findInvalid isAsciiHexdigit s 0 with
    | some (ch, i) => .error (.InvalidCharacter ch i)
    | none => .ok (hexPack s 0 0 0)

/-- The combined validation and packing loop of `encode_alphabetic5bit`
(`'A'..='Z' ↦ 1..=26`). -/
def alpha5Pack : List Char → Nat → Nat → Nat → Nat → Except ProtocolError CompressedString
  | [], low, high, _, _ => .ok ⟨low, high⟩
  | ch :: rest, low, high, bit_pos, i =>
    if 'A' ≤ ch ∧ ch ≤ 'Z' then
      let value := ch.toNat - 'A'.toNat + 1
      if bit_pos + 5 ≤ 64 then
        alpha5Pack rest (low ||| ((value <<< bit_pos) % U64_MOD)) high (bit_pos + 5) (i + 1)
      else if 64 ≤ bit_pos then
        alpha5Pack rest low (high ||| ((value <<< (bit_pos - 64)) % U64_MOD)) (bit_pos + 5) (i + 1)
      else
        let bits_in_low := 64 - bit_pos
        alpha5Pack rest (low ||| ((value <<< bit_pos) % U64_MOD))
          (high ||| (value >>> bits_in_low)) (bit_pos + 5) (i + 1)
    else .error (.InvalidCharacter ch i)

/-- `CompressedString::encode_alphabetic5bit`. -/
def encode_alphabetic5bit (s : List Char) : Except ProtocolError CompressedString :=
  if 25 < s.length then .error (.StringTooLong s.length 25)
  else alpha5Pack s 0 0 0 0

/-- `char::is_ascii_uppercase || char::is_ascii_digit`. -/
def isUpperOrDigit (ch : Char) : Bool :=
  ('A' ≤ ch ∧ ch ≤ 'Z') ∨ ('0' ≤ ch ∧ ch ≤ '9')

/-- The 6-bit value of `encode_alphanumeric6bit`
(`'A'..='Z' ↦ 0..=25`, `'0'..='9' ↦ 26..=35`). -/
def an6Val (ch : Char) : Nat :=
  if 'A' ≤ ch ∧ ch ≤ 'Z' then ch.toNat - 'A'.toNat
  else ch.toNat - '0'.toNat + 26

/-- The bit-packing loop of `encode_alphanumeric6bit`. -/
def an6Pack : List Char → Nat → Nat → Nat → CompressedString
  | [], low, high, _ => ⟨low, high⟩
  | ch :: rest, low, high, bit_pos =>
    let value := an6Val ch
    if bit_pos + 6 ≤ 64 then
      an6Pack rest (low ||| ((value <<< bit_pos) % U64_MOD)) high (bit_pos + 6)
    else if 64 ≤ bit_pos then
      an6Pack rest low (high ||| ((value <<< (bit_pos - 64)) % U64_MOD)) (bit_pos + 6)
    else
      let bits_in_low := 64 - bit_pos
      an6Pack rest (low ||| ((value <<< bit_pos) % U64_MOD))
        (high ||| (value >>> bits_in_low)) (bit_pos + 6)

/-- `CompressedString::encode_alphanumeric6bit`. -/
def encode_alphanumeric6bit (s : List Char) : Except ProtocolError CompressedString :=
  if 21 < s.length then .error (.StringTooLong s.length 21)
  else
    match findInvalid isUpperOrDigit s 0 with
    | some (ch, i) => .error (.InvalidCharacter ch i)
    | none => .ok (an6Pack s 0 0 0)

/-- The bit-packing loop of `encode_ascii7bit` over the raw byte values. -/
def ascii7Pack : List Char → Nat → Nat → Nat → CompressedString
  | [], low, high, _ => ⟨low, high⟩
  | ch :: rest, low, high, bit_pos =>
    let value := ch.toNat
    if bit_pos + 7 ≤ 64 then
      ascii7Pack rest (low ||| ((value <<< bit_pos) % U64_MOD)) high (bit_pos + 7)
    else if 64 ≤ bit_pos then
      ascii7Pack rest low (high ||| ((value <<< (bit_pos - 64)) % U64_MOD)) (bit_pos + 7)
    else
      let bits_in_low := 64 - bit_pos
      ascii7Pack rest (low ||| ((value <<< bit_pos) % U64_MOD))
        (high ||| (value >>> bits_in_low)) (bit_pos + 7)

/-- `CompressedString::encode_ascii7bit`. -/
def encode_ascii7bit (s : List Char) : Except ProtocolError CompressedString :=
  if 18 < s.length then .error (.StringTooLong s.length 18)
  else
    match findInvalid (fun ch => ch.toNat ≤ 127) s 0 with
    | some (ch, i) => .error (.InvalidCharacter ch i)
    | none => .ok (ascii7Pack s 0 0 0)

/-- `CompressedString::from_str`: try the schemes from most to least
compact. -/
def CompressedString.from_str (s : List Char) :
    Except ProtocolError (CompressedString × EncodingScheme) :=
  if s.isEmpty then .ok (CompressedString.new, .Hex4Bit)
  else
    match encode_hex4bit s with
    | .ok r => .ok (r, .Hex4Bit)
    | .error _ =>
      match encode_alphabetic5bit s with
      | .ok r => .ok (r, .Alphabetic5Bit)
      | .error _ =>
        match encode_alphanumeric6bit s with
        | .ok r => .ok (r, .AlphaNumeric6Bit)
        | .error _ =>
          match encode_ascii7bit s with
          | .ok r => .ok (r, .Ascii7Bit)
          | .error _ => .error (.StringTooLong s.length 18)

/-- The `while bit_pos < 128` loop of `decode_hex4bit`; the fuel argument
(32 at the top call) bounds the iterations the `bit_pos` guard already
bounds. -/
def decodeHex4Loop : Nat → Nat → Nat → Nat → List Char
  | 0, _, _, _ => []
  | fuel + 1, low, high, bit_pos =>
    if bit_pos < 128 then
      let value :=
        if bit_pos < 64 then
          if bit_pos + 4 ≤ 64 then (low >>> bit_pos) &&& 0xF
          else
            let bits_from_low := 64 - bit_pos
            let bits_from_high := 4 - bits_from_low
            let low_part := (low >>> bit_pos) &&& ((1 <<< bits_from_low) - 1)
            let high_part := high &&& ((1 <<< bits_from_high) - 1)
            low_part ||| ((high_part <<< bits_from_low) % U64_MOD)
        else (high >>> (bit_pos - 64)) &&& 0xF
      if value = 0 then []
      else if 1 ≤ value ∧ value ≤ 10 then
        Char.ofNat ('0'.toNat + value - 1) :: decodeHex4Loop fuel low high (bit_pos + 4)
      else if 11 ≤ value ∧ value ≤ 15 then
        Char.ofNat ('A'.toNat + value - 11) :: decodeHex4Loop fuel low high (bit_pos + 4)
      else if value = 16 then 'F' :: decodeHex4Loop fuel low high (bit_pos + 4)
      else []
    else []

/-- The loop of `decode_alphabetic5bit`. -/
def decodeAlpha5Loop : Nat → Nat → Nat → Nat → List Char
  | 0, _, _, _ => []
  | fuel + 1, low, high, bit_pos =>
    if bit_pos < 128 then
      let value :=
        if bit_pos < 64 then
          let v := (low >>> bit_pos) &&& 0x1F
          if 59 < bit_pos then
            let overflow_bits := bit_pos + 5 - 64
            v ||| (((high <<< (5 - overflow_bits)) % U64_MOD) &&& 0x1F)
          else v
        else (high >>> (bit_pos - 64)) &&& 0x1F
      if value = 0 then []
      else if value ≤ 26 then
        Char.ofNat ('A'.toNat + value - 1) :: decodeAlpha5Loop fuel low high (bit_pos + 5)
      else []
    else []

/-- The loop of `decode_alphanumeric6bit`, carrying the consecutive-`'A'`
counter and the accumulated result (the source pops the trailing `'A'`s when
three zero values in a row are taken for padding). -/
def decodeAN6Loop : Nat → Nat → Nat → Nat → Nat → List Char → List Char
  | 0, _, _, _, _, acc => acc
  | fuel + 1, low, high, bit_pos, ca, acc =>
    if bit_pos < 128 then
      let value :=
        if bit_pos < 64 then
          let v := (low >>> bit_pos) &&& 0x3F
          if 58 < bit_pos then
            let overflow_bits := bit_pos + 6 - 64
            v ||| (((high <<< (6 - overflow_bits)) % U64_MOD) &&& 0x3F)
          else v
        else (high >>> (bit_pos - 64)) &&& 0x3F
      if 36 ≤ value then acc
      else
        let ch := if value < 26 then Char.ofNat ('A'.toNat + value)
                  else Char.ofNat ('0'.toNat + value - 26)
        let acc := acc ++ [ch]
        if ch = 'A' ∧ value = 0 then
          if 3 ≤ ca + 1 then acc.take (acc.length - (ca + 1))
          else decodeAN6Loop fuel low high (bit_pos + 6) (ca + 1) acc
        else decodeAN6Loop fuel low high (bit_pos + 6) 0 acc
    else acc

/-- The loop of `decode_ascii7bit`. -/
def decodeAscii7Loop : Nat → Nat → Nat → Nat → List Char
  | 0, _, _, _ => []
  | fuel + 1, low, high, bit_pos =>
    if bit_pos < 128 then
      let value :=
        if bit_pos < 64 then
          let v := (low >>> bit_pos) &&& 0x7F
          if 57 < bit_pos then
            let overflow_bits := bit_pos + 7 - 64
            v ||| (((high <<< (7 - overflow_bits)) % U64_MOD) &&& 0x7F)
          else v
        else (high >>> (bit_pos - 64)) &&& 0x7F
      if value = 0 ∨ 127 < value then []
      else Char.ofNat value :: decodeAscii7Loop fuel low high (bit_pos + 7)
    else []

/-- `CompressedString::decode`. -/
def CompressedString.decode (cs : CompressedString) (scheme : EncodingScheme) : List Char :=
  match scheme with
  | .Hex4Bit => decodeHex4Loop 32 cs.low cs.high 0
  | .Alphabetic5Bit => decodeAlpha5Loop 26 cs.low cs.high 0
  | .AlphaNumeric6Bit => decodeAN6Loop 22 cs.low cs.high 0 0 []
  | .Ascii7Bit => decodeAscii7Loop 19 cs.low cs.high 0

/-- **C1 (refuted — code bug).** The claim says every string of a scheme's
accepted set round-trips.  `"F"` is in Hex4Bit's accepted set (one character
from `[0-9A-F]`), the encoder picks Hex4Bit for it, but assigns `'F'` the
value 16, which overflows the 4-bit slot (the stored word is `16`, whose low
nibble is `0`), so decoding stops at the apparent terminator and returns the
empty string instead of `"F"`.  (The decoder's dead `16 => 'F'` arm behind a
`& 0xF` mask shows the intended handling.) -/
theorem C1_hex_F_roundtrip_fails :
    CompressedString.from_str ['F'] = .ok (⟨16, 0⟩, .Hex4Bit) ∧
    CompressedString.decode ⟨16, 0⟩ .Hex4Bit = [] ∧
    ['F'] ≠ ([] : List Char) := by
  refine ⟨by rfl, by rfl, by simp⟩

/-! ## Risk manager and quote engine (src/mm_strategy/src/risk_manager.rs,
src/mm_strategy/src/quote_engine.rs)

`f64` values (configuration, via-`to_f64` conversions, confidence scores)
are modelled as exact rationals.  The kill-switch property proved below is
independent of the numeric domain: the kill check short-circuits before any
arithmetic.  Reason strings keep the static prefix of the Rust `format!`
calls and omit numeric interpolation. -/

/-- `struct StrategyConfig`. -/
structure StrategyConfig where
  min_spread_bps : ℚ
  volatility_factor : ℚ
  inventory_skew_factor : ℚ
  max_position_size : ℚ
  max_order_size : ℚ
  target_inventory : ℚ
  base_quote_size : ℚ
  risk_aversion : ℚ
  drift_halflife_secs : ℚ
  volatility_halflife_secs : ℚ
  trade_flow_window_secs : ℚ
  min_confidence : ℚ
  deriving DecidableEq

/-- `struct StrategyQuote` (`FixedPoint` fields as raw `i64`). -/
structure StrategyQuote where
  timestamp : Nat
  bid_price : Int
  bid_size : Int
  ask_price : Int
  ask_size : Int
  fair_value : Int
  inventory : Int
  confidence : ℚ
  deriving DecidableEq

/-- `FixedPoint::to_f64`. -/
def fpToF64 (x : Int) : ℚ := (x : ℚ) / 100000000

/-- `f64::round`: nearest integer, ties away from zero. -/
def roundHalfAway (q : ℚ) : Int := if q < 0 then -⌊-q + 1/2⌋ else ⌊q + 1/2⌋

/-- `to_fixed_point` / `FixedPoint::from_f64`. -/
def to_fixed_point (value : ℚ) : Int := roundHalfAway (value * 100000000)

/-- Truncation of a rational toward zero (the `as i128`/`as i64` float
casts). -/
def truncQ (q : ℚ) : Int := q.num.tdiv (q.den : Int)

/-- `FixedPoint::apply_bps`. -/
def apply_bps (x : Int) (bps : ℚ) : Int :=
  x + wrap64 ((x * truncQ (bps * 10000)).tdiv 100000000)

/-- `FixedPoint::subtract_bps`. -/
def subtract_bps (x : Int) (bps : ℚ) : Int :=
  x - wrap64 ((x * truncQ (bps * 10000)).tdiv 100000000)

/-- `FixedPoint::mul_scalar` (the `f64` product is modelled exactly; the
saturating `as i64` cast is not reached for the magnitudes involved). -/
def mul_scalar (x : Int) (scalar : ℚ) : Int := wrap64 (truncQ ((x : ℚ) * scalar))

/-- `struct MarketState` (src/mm_types/src/lib.rs). -/
structure MarketState where
  timestamp : Nat
  bid_price : Int
  ask_price : Int
  bid_volume : Int
  ask_volume : Int
  last_trade_price : Option Int
  last_trade_size : Option Int
  deriving DecidableEq

/-- `MarketState::mid_price`: `(bid + ask) / FixedPoint::from_int(2)`. -/
def MarketState.mid_price (s : MarketState) : Int :=
  fpDiv (s.bid_price + s.ask_price) (2 * FIXED_POINT_MULTIPLIER)

/-- `MarketState::spread_bps`. -/
def MarketState.spread_bps (s : MarketState) : ℚ :=
  fpToF64 (s.ask_price - s.bid_price) / fpToF64 s.mid_price * 10000

/-- `enum RiskCheckResult`. -/
inductive RiskCheckResult where
  | Accept
  | Reject (reason : String)
  deriving DecidableEq

/-- `RiskCheckResult::is_accept`. -/
def RiskCheckResult.is_accept : RiskCheckResult → Bool
  | .Accept => true
  | .Reject _ => false

/-- `RiskCheckResult::is_reject`. -/
def RiskCheckResult.is_reject (r : RiskCheckResult) : Bool := !r.is_accept

/-- `struct RiskManager`. -/
structure RiskManager where
  config : StrategyConfig
  max_daily_loss : Option Int
  daily_realized_pnl : Int
  is_killed : Bool
  kill_reason : Option String
  deriving DecidableEq

/-- `RiskManager::new`: default `$1000` daily loss limit, not killed. -/
def RiskManager.new (config : StrategyConfig) : RiskManager :=
  { config := config, max_daily_loss := some (to_fixed_point (-1000))
    daily_realized_pnl := 0, is_killed := false, kill_reason := none }

/-- `RiskManager::check_position_limit`. -/
def RiskManager.check_position_limit (rm : RiskManager) (position : Position) :
    RiskCheckResult :=
  let abs_position := |fpToF64 position.quantity|
  if rm.config.max_position_size < abs_position then .Reject "Position limit exceeded"
  else .Accept

/-- `RiskManager::check_order_size`. -/
def RiskManager.check_order_size (rm : RiskManager) (order_size : Int) : RiskCheckResult :=
  let abs_size := |fpToF64 order_size|
  if rm.config.max_order_size < abs_size then .Reject "Order size exceeds limit"
  else if abs_size ≤ 0 then .Reject "Order size must be positive"
  else .Accept

/-- `RiskManager::check_daily_loss`. -/
def RiskManager.check_daily_loss (rm : RiskManager) : RiskCheckResult :=
  match rm.max_daily_loss with
  | some max_loss =>
    if rm.daily_realized_pnl < max_loss then .Reject "Daily loss limit breached"
    else .Accept
  | none => .Accept

/-- `RiskManager::check_quote`: kill switch, daily loss, position limit,
order sizes, crossed quotes, 10% mark-distance checks, confidence floor. -/
def RiskManager.check_quote (rm : RiskManager) (quote : StrategyQuote)
    (position : Position) (mark_price : Int) : RiskCheckResult :=
  if rm.is_killed then .Reject "Strategy killed"
  else
    match rm.check_daily_loss with
    | .Reject reason => .Reject reason
    | .Accept =>
      match rm.check_position_limit position with
      | .Reject reason => .Reject reason
      | .Accept =>
        match rm.check_order_size quote.bid_size with
        | .Reject reason => .Reject ("Bid: " ++ reason)
        | .Accept =>
          match rm.check_order_size quote.ask_size with
          | .Reject reason => .Reject ("Ask: " ++ reason)
          | .Accept =>
            if quote.ask_price ≤ quote.bid_price then .Reject "Crossed quotes"
            else
              let mark := fpToF64 mark_price
              let bid := fpToF64 quote.bid_price
              let ask := fpToF64 quote.ask_price
              if 1 / 10 < |bid - mark| / mark then .Reject "Bid price too far from mark"
              else if 1 / 10 < |ask - mark| / mark then .Reject "Ask price too far from mark"
              else if quote.confidence < rm.config.min_confidence then
                .Reject "Confidence too low"
              else .Accept

/-- `RiskManager::kill`. -/
def RiskManager.kill (rm : RiskManager) (reason : String) : RiskManager :=
  { rm with is_killed := true, kill_reason := some reason }

/-- `RiskManager::resume`. -/
def RiskManager.resume (rm : RiskManager) : RiskManager :=
  { rm with is_killed := false, kill_reason := none }

/-- `enum InventoryAction` (src/mm_strategy/src/inventory_manager.rs). -/
inductive InventoryAction where
  | EmergencyUnwind
  | AggressiveUnwind
  | PassiveUnwind
  | Neutral
  | Accumulate
  deriving DecidableEq

/-- The drift-estimator, volatility-EMA and inventory-manager operations the
quote engine calls.  Their implementations are floating-point signal
processing (EMA smoothing with `exp`, signal fusion); the kill-switch claim
holds for *every* behaviour of these components, so `generate_quotes` is
verified parametrically in them. -/
structure StrategyModels (D E I : Type) where
  update_market_state : D → MarketState → D
  estimate_drift_bps : D → MarketState → ℚ
  confidence : D → ℚ
  ema_update : E → ℚ → E
  ema_value : E → ℚ
  inventory : I → Int
  inventory_skew_bps : I → ℚ → ℚ
  recommended_action : I → ℚ → InventoryAction
  asymmetric_sizes : I → ℚ × ℚ
  position : I → Position

/-- `struct QuoteEngine`. -/
structure QuoteEngine (D E I : Type) where
  config : StrategyConfig
  drift_estimator : D
  inventory_manager : I
  risk_manager : RiskManager
  volatility_ema : E
  last_mid_price : Option Int

/-- `QuoteEngine::update_volatility`. -/
def update_volatility {D E I : Type} (M : StrategyModels D E I) (e : QuoteEngine D E I)
    (state : MarketState) : QuoteEngine D E I :=
  let e :=
    match e.last_mid_price with
    | some last_mid =>
      let current_mid := state.mid_price
      let returns := |fpToF64 (current_mid - last_mid) / fpToF64 last_mid|
      { e with volatility_ema := M.ema_update e.volatility_ema returns }
    | none => e
  { e with last_mid_price := some state.mid_price }

/-- `QuoteEngine::calculate_base_spread_bps`. -/
def calculate_base_spread_bps {D E I : Type} (M : StrategyModels D E I)
    (e : QuoteEngine D E I) (state : MarketState) : ℚ :=
  let min_spread := e.config.min_spread_bps
  let volatility := M.ema_value e.volatility_ema
  let vol_spread := volatility * e.config.volatility_factor * 10000
  let market_spread_bps := state.spread_bps
  let tick_spread_bps := max market_spread_bps min_spread
  max (max min_spread vol_spread) tick_spread_bps

/-- `QuoteEngine::generate_quotes`: update the models, return `None` when
the kill switch is set, otherwise compose fair value, spread, skew and sizes
and risk-check the quote. -/
def generate_quotes {D E I : Type} (M : StrategyModels D E I) (e : QuoteEngine D E I)
    (state : MarketState) : Option StrategyQuote × QuoteEngine D E I :=
  let e := { e with drift_estimator := M.update_market_state e.drift_estimator state }
  let e := update_volatility M e state
  if e.risk_manager.is_killed then (none, e)
  else
    let mid := state.mid_price
    let drift_bps := M.estimate_drift_bps e.drift_estimator state
    let fair_value := apply_bps mid drift_bps
    let inventory := M.inventory e.inventory_manager
    let inventory_skew_bps := M.inventory_skew_bps e.inventory_manager drift_bps
    let inventory_action := M.recommended_action e.inventory_manager drift_bps
    let base_spread_bps := calculate_base_spread_bps M e state
    let spread_multiplier : ℚ :=
      match inventory_action with
      | .EmergencyUnwind => 1 / 2
      | .AggressiveUnwind => 7 / 10
      | .PassiveUnwind => 1
      | .Neutral => 1
      | .Accumulate => 6 / 5
    let base_spread_bps := base_spread_bps * spread_multiplier
    let half_spread_bps := base_spread_bps / 2
    let bid_spread_bps := half_spread_bps - inventory_skew_bps / 2
    let ask_spread_bps := half_spread_bps + inventory_skew_bps / 2
    let bid_price := subtract_bps fair_value bid_spread_bps
    let ask_price := apply_bps fair_value ask_spread_bps
    let sizes := M.asymmetric_sizes e.inventory_manager
    let base_size := e.config.base_quote_size
    let size_urgency : ℚ :=
      match inventory_action with
      | .EmergencyUnwind => 2
      | .AggressiveUnwind => 3 / 2
      | .PassiveUnwind => 1
      | .Neutral => 1
      | .Accumulate => 4 / 5
    let base_size_fp := to_fixed_point base_size
    let bid_size := if 0 < inventory then mul_scalar base_size_fp sizes.1
                    else mul_scalar base_size_fp (sizes.1 * size_urgency)
    let ask_size := if inventory < 0 then mul_scalar base_size_fp sizes.2
                    else mul_scalar base_size_fp (sizes.2 * size_urgency)
    let confidence := M.confidence e.drift_estimator
    let quote : StrategyQuote :=
      { timestamp := state.timestamp, bid_price := bid_price, bid_size := bid_size
        ask_price := ask_price, ask_size := ask_size, fair_value := fair_value
        inventory := inventory, confidence := confidence }
    let mark_price := state.mid_price
    let position := M.position e.inventory_manager
    let risk_result := e.risk_manager.check_quote quote position mark_price
    if risk_result.is_accept then (some quote, e) else (none, e)

theorem update_volatility_rm {D E I : Type} (M : StrategyModels D E I)
    (e : QuoteEngine D E I) (state : MarketState) :
    (update_volatility M e state).risk_manager = e.risk_manager := by
  rcases h : e.last_mid_price with _ | lm <;> simp [update_volatility, h]

/-- **C7.** While the kill switch is set, no quote is emitted:
`generate_quotes` returns `None` for every market state and every behaviour
of the drift/volatility/inventory components, and `check_quote` rejects
every quote; `kill` sets the switch, and `resume` restores exactly the
un-killed manager, so the switch no longer blocks quoting afterwards. -/
theorem C7_kill_switch_blocks :
    (∀ (D E I : Type) (M : StrategyModels D E I) (e : QuoteEngine D E I)
      (state : MarketState), e.risk_manager.is_killed = true →
      (generate_quotes M e state).1 = none) ∧
    (∀ (rm : RiskManager) (q : StrategyQuote) (pos : Position) (mark : Int),
      rm.is_killed = true → (rm.check_quote q pos mark).is_reject = true) ∧
    (∀ (rm : RiskManager) (reason : String),
      (rm.kill reason).is_killed = true ∧
      ((rm.kill reason).resume).is_killed = false ∧
      (rm.kill reason).resume = { rm with is_killed := false, kill_reason := none }) := by
  refine ⟨?_, ?_, ?_⟩
  · intro D E I M e state hk
    simp only [generate_quotes]
    rw [if_pos (by rw [update_volatility_rm]; exact hk)]
  · intro rm q pos mark hk
    simp only [RiskManager.check_quote]
    rw [if_pos hk]
    rfl
  · intro rm reason
    exact ⟨rfl, rfl, rfl⟩

/-- The trivial instantiation of the parametric strategy components, used by
the C7 witness. -/
def trivialModels : StrategyModels Unit Unit Unit :=
  { update_market_state := fun _ _ => (), estimate_drift_bps := fun _ _ => 0
    confidence := fun _ => 1, ema_update := fun _ _ => (), ema_value := fun _ => 0
    inventory := fun _ => 0, inventory_skew_bps := fun _ _ => 0
    recommended_action := fun _ _ => .Neutral, asymmetric_sizes := fun _ => (1, 1)
    position := fun _ => Position.new }

/-- A concrete configuration for the C7 witness. -/
def witnessConfig : StrategyConfig :=
  { min_spread_bps := 5, volatility_factor := 1, inventory_skew_factor := 0
    max_position_size := 10, max_order_size := 1, target_inventory := 0
    base_quote_size := 1 / 10, risk_aversion := 1, drift_halflife_secs := 10
    volatility_halflife_secs := 10, trade_flow_window_secs := 10, min_confidence := 0 }

/-- A concrete market state for the C7 witness. -/
def witnessState : MarketState :=
  { timestamp := 1, bid_price := 10000000000, ask_price := 10100000000
    bid_volume := 1000000000, ask_volume := 1000000000
    last_trade_price := none, last_trade_size := none }

/-- A concrete killed quote engine for the C7 witness. -/
def witnessKilledEngine : QuoteEngine Unit Unit Unit :=
  { config := witnessConfig, drift_estimator := (), inventory_manager := ()
    risk_manager := (RiskManager.new witnessConfig).kill "heartbeat timeout"
    volatility_ema := (), last_mid_price := none }

/-- A concrete quote for the C7 witness. -/
def witnessQuote : StrategyQuote :=
  { timestamp := 1, bid_price := 9990000000, bid_size := 10000000
    ask_price := 10110000000, ask_size := 10000000, fair_value := 10050000000
    inventory := 0, confidence := 1 }

/-- Witness for C7 at the concrete killed engine and manager. -/
theorem C7_kill_switch_blocks_witness :
    (generate_quotes trivialModels witnessKilledEngine witnessState).1 = none ∧
    (((RiskManager.new witnessConfig).kill "x").check_quote witnessQuote Position.new
        10050000000).is_reject = true ∧
    (((RiskManager.new witnessConfig).kill "x").is_killed = true ∧
     (((RiskManager.new witnessConfig).kill "x").resume).is_killed = false ∧
     ((RiskManager.new witnessConfig).kill "x").resume
        = { RiskManager.new witnessConfig with is_killed := false, kill_reason := none }) :=
  ⟨C7_kill_switch_blocks.1 Unit Unit Unit trivialModels witnessKilledEngine witnessState rfl,
   C7_kill_switch_blocks.2.1 ((RiskManager.new witnessConfig).kill "x") witnessQuote
     Position.new 10050000000 rfl,
   C7_kill_switch_blocks.2.2 (RiskManager.new witnessConfig) "x"⟩

end MMFun
